import Mathlib

/-!
Verification of the terrain generator of the `racingGame2.5D` repository.

The development shallowly embeds the `Terrain` class of the canonical
(three-material) implementation (`src/unnamed/part_004`); the companion
implementation `src/src/components/Terrain.js` shares all of the functions
modelled here except `createTerrainSegment` (noted where relevant).

Modelling conventions:
* JavaScript numbers are modelled as rationals (`ℚ`); decimal literals in the
  source are exact rationals.  NaN/±Infinity only matter for the `update`
  entry guards, where a dedicated `JSNum` type is used.
* `Math.sin` / `Math.cos` are implementation-approximated per the ECMAScript
  specification, so the model is parameterised by a host structure `JsMath`
  carrying those two functions.  All structural theorems quantify over the
  host; concrete evaluations instantiate it.
* The mutable instance state of a `Terrain` object that the modelled methods
  read or write is `TState`: the LCG state `seed`, the constructor-time
  noise offset `noiseOffsetX`, and the segment store `terrainMeshes`.
  Rendering/physics handles (meshes, bodies, decorations) live in external
  collaborators and are outside the model; the pseudo-random draws those
  sub-steps perform are modelled exactly (they advance `seed`).
* `generateHills` and `getTerrainHeightAt` are mutually recursive in the
  source (boundary blending consults the height query, whose fallback calls
  the hills generator on a 20-unit span in which no further recursion can
  trigger).  The embedding uses an explicit fuel argument; the real call
  depth is at most 3, so any fuel ≥ 3 realises the source semantics.
-/

namespace Racing

/-- Host math functions.  ECMAScript leaves `Math.sin`/`Math.cos`
implementation-approximated, so they are parameters of the model. -/
structure JsMath where
  sin : ℚ → ℚ
  cos : ℚ → ℚ

/-- The double-precision value of `Math.PI` (the IEEE-754 double nearest π),
as an exact rational: 884279719003555 / 2^48. -/
def jsPI : ℚ := 884279719003555 / 281474976710656

/-- Chunk types, `src/unnamed/part_004` `selectChunkType`. -/
inductive ChunkType where
  | hills | plateau | ramp | gap | washboard | valley
deriving DecidableEq, Repr

/-- `{x, y, height}` sample points pushed by `createTerrainSegment`;
`height = none` models the JavaScript `null` (gap, no terrain). -/
structure SamplePoint where
  x : ℚ
  y : ℚ
  height : Option ℚ
deriving DecidableEq, Repr

/-- A stored terrain segment (the fields of the object pushed onto
`this.terrainMeshes` that the modelled methods read).  `points = none`
models a missing (`undefined`) points array. -/
structure Segment where
  startX : ℚ
  points : Option (List SamplePoint)
  chunkType : ChunkType
deriving DecidableEq, Repr

/-- The modelled mutable state of a `Terrain` instance. -/
structure TState where
  seed : ℕ
  noiseOffsetX : ℕ
  terrainMeshes : List Segment
deriving DecidableEq, Repr

/-- `this.segmentWidth = 40` (constructor). -/
def segmentWidth : ℚ := 40

/-- Constructor state: `this.seed = seed`, `this.noiseOffsetX = seed % 10000`,
`this.terrainMeshes = []`. -/
def initState (seed : ℕ) : TState :=
  { seed := seed, noiseOffsetX := seed % 10000, terrainMeshes := [] }

/-- The LCG state transition of `seededRandom()`:
`this.seed = (this.seed * 9301 + 49297) % 233280`. -/
def seededRandomStep (s : ℕ) : ℕ := (s * 9301 + 49297) % 233280

/-- `seededRandom()`: advances the state and returns `this.seed / 233280`. -/
def seededRandom (s : ℕ) : ℕ × ℚ :=
  let s' := seededRandomStep s
  (s', (s' : ℚ) / 233280)

/-- Iterate the LCG `n` times (used to account for the draws performed by
the physics/decoration sub-steps of `createTerrainSegment`). -/
def advanceSeed (s : ℕ) : ℕ → ℕ
  | 0 => s
  | n + 1 => advanceSeed (seededRandomStep s) n

/-- The selection tables of `selectChunkType(difficulty)` applied to an
already-drawn random value `rand`. -/
def selectChunkTypePick (rand : ℚ) (difficulty : ℚ) : ChunkType :=
  if difficulty < 0.15 then
    if rand < 0.7 then .hills else .plateau
  else if difficulty < 0.3 then
    if rand < 0.5 then .hills
    else if rand < 0.7 then .plateau
    else if rand < 0.9 then .ramp
    else .washboard
  else if difficulty < 0.5 then
    if rand < 0.3 then .hills
    else if rand < 0.5 then .ramp
    else if rand < 0.7 then .washboard
    else if rand < 0.9 then .valley
    else .gap
  else if difficulty < 0.7 then
    if rand < 0.2 then .hills
    else if rand < 0.4 then .plateau
    else if rand < 0.6 then .washboard
    else if rand < 0.8 then .valley
    else .gap
  else
    if rand < 0.15 then .hills
    else if rand < 0.35 then .ramp
    else if rand < 0.55 then .washboard
    else if rand < 0.75 then .valley
    else .gap

/-- `selectChunkType(difficulty)`: one `seededRandom()` draw then the
difficulty-banded tables. -/
def selectChunkType (s : ℕ) (difficulty : ℚ) : ℕ × ChunkType :=
  let (s', rand) := seededRandom s
  (s', selectChunkTypePick rand difficulty)

/-- `cubicInterpolation(t) = t*t*(3 - 2*t)`. -/
def cubicInterpolation (t : ℚ) : ℚ := t * t * (3 - 2 * t)

/-- `quinticInterpolation(t) = t*t*t*(t*(t*6 - 15) + 10)`. -/
def quinticInterpolation (t : ℚ) : ℚ := t * t * t * (t * (t * 6 - 15) + 10)

/-- `bezierInterpolation(t, p0, p1, p2, p3)`. -/
def bezierInterpolation (t p0 p1 p2 p3 : ℚ) : ℚ :=
  let oneMinusT := 1 - t
  oneMinusT * oneMinusT * oneMinusT * p0 +
    3 * oneMinusT * oneMinusT * t * p1 +
    3 * oneMinusT * t * t * p2 +
    t * t * t * p3

/-- The `smoothness` selector of `smoothTransition`. -/
inductive Smoothness where
  | linear | cubic | quintic
deriving DecidableEq, Repr

/-- `smoothTransition(t, startHeight, endHeight, smoothness)`. -/
def smoothTransition (t startHeight endHeight : ℚ)
    (smoothness : Smoothness) : ℚ :=
  let factor :=
    match smoothness with
    | .linear => t
    | .cubic => cubicInterpolation t
    | .quintic => quinticInterpolation t
  startHeight * (1 - factor) + endHeight * factor

/-- The fractional part `v - Math.floor(v)`. -/
def jsFract (v : ℚ) : ℚ := v - Int.floor v

/-- The hash index `(X + offset) & 255` fed to `Math.sin` inside `noise`,
where `X = Math.floor(x) & 255` and `offset = this.seed % 256`.  Note that
`offset` is taken from the *current* LCG state, not the constructor seed. -/
def noiseH1 (seed : ℕ) (x : ℚ) : ℤ :=
  ((Int.floor x % 256) + (seed % 256 : ℕ)) % 256

/-- `noise(x)` (part_004 lines 577–596).  Reads the mutable `this.seed` both
for the hash offset and for the phase term `this.seed * 0.1`. -/
def noise (jm : JsMath) (seed : ℕ) (x : ℚ) : ℚ :=
  let X : ℤ := Int.floor x % 256
  let xf := jsFract x
  let fadeX := xf * xf * (3 - 2 * xf)
  let h1 : ℤ := noiseH1 seed x
  let h2 : ℤ := (X + 1 + (seed % 256 : ℕ)) % 256
  let n1 := jm.sin ((h1 : ℚ) * 37.1 + (seed : ℚ) * 0.1) * 43758.5453
  let n2 := jm.sin ((h2 : ℚ) * 37.1 + (seed : ℚ) * 0.1) * 43758.5453
  let res1 := jsFract n1 * 2 - 1
  let res2 := jsFract n2 * 2 - 1
  res1 + fadeX * (res2 - res1)

/-- The octave loop of `improvedNoise` carrying
`(total, amplitude, maxValue, frequency)`. -/
def improvedNoiseLoop (jm : JsMath) (seed : ℕ) (seedX : ℚ)
    (persistence lacunarity : ℚ) :
    ℕ → ℚ → ℚ → ℚ → ℚ → ℚ × ℚ
  | 0, _, _, total, maxValue => (total, maxValue)
  | octaves + 1, frequency, amplitude, total, maxValue =>
      improvedNoiseLoop jm seed seedX persistence lacunarity octaves
        (frequency * lacunarity) (amplitude * persistence)
        (total + noise jm seed (seedX * frequency) * amplitude)
        (maxValue + amplitude)

/-- `improvedNoise(x, frequency, octaves, persistence, lacunarity)`:
`seedX = x + this.noiseOffsetX`, then the weighted octave sum normalised by
the weight total. -/
def improvedNoise (jm : JsMath) (seed noiseOffsetX : ℕ)
    (x frequency : ℚ) (octaves : ℕ) (persistence lacunarity : ℚ) : ℚ :=
  let seedX := x + (noiseOffsetX : ℚ)
  let (total, maxValue) :=
    improvedNoiseLoop jm seed seedX persistence lacunarity octaves frequency 1 0 0
  total / maxValue

/-- `getTerrainHeightNear(x)` (part_004 lines 990–1012): consults only the
existing segment store; `none` models the JavaScript `undefined`. -/
def getTerrainHeightNear (st : TState) (x : ℚ) : Option ℚ :=
  match st.terrainMeshes.find?
      (fun s => decide (s.startX ≤ x) && decide (s.startX + segmentWidth > x)) with
  | some seg =>
      match seg.points with
      | some pts =>
          let pointIndex : ℤ :=
            Int.floor (((x - seg.startX) / segmentWidth) * (pts.length : ℚ))
          if h : 0 ≤ pointIndex ∧ pointIndex.toNat < pts.length then
            some (pts.get ⟨pointIndex.toNat, h.2⟩).y
          else
            none
      | none => none
  | none => none

instance : Inhabited SamplePoint := ⟨⟨0, 0, none⟩⟩

mutual

/-- `generateHills(x, startX, endX, difficulty)` (part_004 lines 599–656):
fractal-noise height, a rate-limit against `getTerrainHeightNear(x - 0.5)`,
and boundary blends consulting `getTerrainHeightAt`. -/
def generateHills (jm : JsMath) (st : TState) :
    ℕ → ℚ → ℚ → ℚ → ℚ → ℚ
  | 0, _, _, _, _ => 0
  | fuel + 1, x, startX, endX, difficulty =>
    let adjustedDifficulty := min (difficulty * 0.6) 0.5
    let amplitude := min (1.2 + adjustedDifficulty * 1.3) 1.8
    let baseNoise := improvedNoise jm st.seed st.noiseOffsetX x 0.05 3 0.5 2.0
    let detailNoise := improvedNoise jm st.seed st.noiseOffsetX x 0.2 2 0.3 2.5
    let rawHeight := baseNoise * amplitude + detailNoise * (amplitude * 0.3)
    let previousHeight := getTerrainHeightNear st (x - 0.5)
    let rateLimited : Option ℚ :=
      match previousHeight with
      | some ph =>
          let delta := rawHeight - ph
          if |delta| > 0.15 then
            let t := min (|delta| / 0.15) 1
            some (ph + delta * quinticInterpolation (1 - t))
          else none
      | none => none
    match rateLimited with
    | some v => v
    | none =>
        if x - startX < 1 then
          match getTerrainHeightAt jm st fuel (startX - 0.1) with
          | some prevSegmentHeight =>
              let t := quinticInterpolation (x - startX)
              prevSegmentHeight * (1 - t) + rawHeight * t
          | none => rawHeight
        else if endX - x < 1 then
          match getTerrainHeightAt jm st fuel (endX + 0.1) with
          | some nextSegmentHeight =>
              let t := quinticInterpolation (endX - x)
              rawHeight * (1 - t) + nextSegmentHeight * t
          | none => rawHeight
        else rawHeight

/-- `generatePlateau(x, startX, endX, difficulty)` (part_004 lines 659–700).
The `||` fallbacks fire when `getTerrainHeightNear` yields `undefined` or a
falsy (zero) height, exactly as in the source. -/
def generatePlateau (jm : JsMath) (st : TState) :
    ℕ → ℚ → ℚ → ℚ → ℚ → ℚ
  | 0, _, _, _, _ => 0
  | fuel + 1, x, startX, endX, difficulty =>
    let width := endX - startX
    let baseHeight := jm.sin (startX * 0.03) * 4
    let distanceFromStart := x - startX
    let distanceFromEnd := endX - x
    let transitionWidth := width * 0.2
    if distanceFromStart < transitionWidth then
      let prevHeight :=
        match getTerrainHeightNear st (startX - 0.1) with
        | some v =>
            if v = 0 then
              generateHills jm st fuel (startX - 0.1) (startX - segmentWidth)
                startX difficulty
            else v
        | none =>
            generateHills jm st fuel (startX - 0.1) (startX - segmentWidth)
              startX difficulty
      smoothTransition (distanceFromStart / transitionWidth) prevHeight
        baseHeight .quintic
    else if distanceFromEnd < transitionWidth then
      let nextHeight :=
        match getTerrainHeightNear st (endX + 0.1) with
        | some v =>
            if v = 0 then
              generateHills jm st fuel (endX + 0.1) endX (endX + segmentWidth)
                difficulty
            else v
        | none =>
            generateHills jm st fuel (endX + 0.1) endX (endX + segmentWidth)
              difficulty
      smoothTransition (distanceFromEnd / transitionWidth) nextHeight
        baseHeight .quintic
    else
      baseHeight + jm.sin (x * 0.3) * 0.2 + jm.cos (x * 0.7) * 0.1

/-- `generateGap(x, startX, endX, difficulty)` (part_004 lines 702–780):
`none` models the `null` returned strictly inside `(gapStart, gapEnd)`. -/
def generateGap (jm : JsMath) (st : TState) :
    ℕ → ℚ → ℚ → ℚ → ℚ → Option ℚ
  | 0, _, _, _, _ => some 0
  | fuel + 1, x, startX, endX, difficulty =>
    let adjustedDifficulty := min (difficulty * 0.7) 0.6
    let width := endX - startX
    let gapWidth := min (3 + adjustedDifficulty * 2) 5.0
    let gapCenter := (startX + endX) / 2
    let gapStart := gapCenter - gapWidth / 2
    let gapEnd := gapCenter + gapWidth / 2
    let transitionLength := width * 0.15
    if x < gapStart - transitionLength then
      some (generateHills jm st fuel x startX (gapStart - transitionLength)
        (adjustedDifficulty * 0.3) + 0.5)
    else if x < gapStart then
      let baseHeight :=
        generateHills jm st fuel (gapStart - transitionLength) startX
          (gapStart - transitionLength) (adjustedDifficulty * 0.3) + 0.5
      let t := (x - (gapStart - transitionLength)) / transitionLength
      some (smoothTransition t baseHeight (-24) .quintic)
    else if x < gapEnd then
      none
    else if x < gapEnd + transitionLength then
      let afterGapHeight :=
        generateHills jm st fuel (gapEnd + transitionLength)
          (gapEnd + transitionLength) endX (adjustedDifficulty * 0.3) + 0.5
      let t := (x - gapEnd) / transitionLength
      some (smoothTransition t (-24) afterGapHeight .quintic)
    else
      some (generateHills jm st fuel x (gapEnd + transitionLength) endX
        (adjustedDifficulty * 0.3) + 0.5)

/-- `generateRamp(x, startX, endX, difficulty)` (part_004 lines 783–873). -/
def generateRamp (jm : JsMath) (st : TState) :
    ℕ → ℚ → ℚ → ℚ → ℚ → ℚ
  | 0, _, _, _, _ => 0
  | fuel + 1, x, startX, endX, difficulty =>
    let width := endX - startX
    let adjustedDifficulty := min (difficulty * 0.7) 0.6
    let rampWidth := width * 0.6
    let rampCenter := (startX + endX) / 2
    let rampStart := rampCenter - rampWidth / 2
    let rampPeak := rampCenter
    let rampEnd := rampCenter + rampWidth / 2
    let rampHeight := min (3 + adjustedDifficulty * 1.5) 5
    let transitionLength := width * 0.15
    if x < rampStart then
      let baseHeight :=
        generateHills jm st fuel x startX rampStart (adjustedDifficulty * 0.3)
      let distanceToRamp := rampStart - x
      if distanceToRamp < transitionLength then
        baseHeight + rampHeight * 0.1 *
          cubicInterpolation (1 - distanceToRamp / transitionLength)
      else baseHeight
    else if x < rampPeak then
      let baseHeight :=
        generateHills jm st fuel rampStart startX rampStart
          (adjustedDifficulty * 0.3)
      let t := (x - rampStart) / (rampPeak - rampStart)
      bezierInterpolation t baseHeight (baseHeight + rampHeight * 0.3)
        (baseHeight + rampHeight * 0.7) (baseHeight + rampHeight)
    else if x < rampEnd then
      let baseHeight :=
        generateHills jm st fuel rampStart startX rampStart
          (adjustedDifficulty * 0.3)
      let peakHeight := baseHeight + rampHeight
      let t := (x - rampPeak) / (rampEnd - rampPeak)
      bezierInterpolation t peakHeight (peakHeight - rampHeight * 0.3)
        (peakHeight - rampHeight * 0.7) baseHeight
    else
      let baseHeight :=
        generateHills jm st fuel x rampEnd endX (adjustedDifficulty * 0.3)
      let distanceFromRamp := x - rampEnd
      if distanceFromRamp < transitionLength then
        baseHeight + rampHeight * 0.1 *
          cubicInterpolation (1 - distanceFromRamp / transitionLength)
      else baseHeight

/-- `generateWashboard(x, startX, endX, difficulty)` (part_004 lines 875–941). -/
def generateWashboard (jm : JsMath) (st : TState) :
    ℕ → ℚ → ℚ → ℚ → ℚ → ℚ
  | 0, _, _, _, _ => 0
  | fuel + 1, x, startX, endX, difficulty =>
    let width := endX - startX
    let adjustedDifficulty := min (difficulty * 0.7) 0.6
    let washboardCenter := (startX + endX) / 2
    let washboardWidth := width * 0.7
    let washboardStart := washboardCenter - washboardWidth / 2
    let washboardEnd := washboardCenter + washboardWidth / 2
    if x < washboardStart then
      generateHills jm st fuel x startX washboardStart
        (adjustedDifficulty * 0.3)
    else if x < washboardEnd then
      let baseHeight :=
        generateHills jm st fuel washboardStart startX washboardStart
          (adjustedDifficulty * 0.3)
      let normalizedX := (x - washboardStart) / (washboardEnd - washboardStart)
      let phase := normalizedX * jsPI * 2 * 8
      let maxAmplitude := min (0.7 + adjustedDifficulty * 0.6) 1.5
      let fadeLength := washboardWidth * 0.2
      let distFromStart := x - washboardStart
      let distFromEnd := washboardEnd - x
      let amplitudeFactor :=
        if distFromStart < fadeLength then
          cubicInterpolation (distFromStart / fadeLength)
        else if distFromEnd < fadeLength then
          cubicInterpolation (distFromEnd / fadeLength)
        else 1
      let mainWave := jm.sin phase * maxAmplitude
      let secondaryWave := jm.sin (phase * 2) * (maxAmplitude * 0.2)
      baseHeight + (mainWave + secondaryWave) * amplitudeFactor
    else
      generateHills jm st fuel x washboardEnd endX (adjustedDifficulty * 0.3)

/-- `generateValley(x, startX, endX, difficulty)` (part_004 lines 943–988). -/
def generateValley (jm : JsMath) (st : TState) :
    ℕ → ℚ → ℚ → ℚ → ℚ → ℚ
  | 0, _, _, _, _ => 0
  | fuel + 1, x, startX, endX, difficulty =>
    let width := endX - startX
    let adjustedDifficulty := min (difficulty * 0.7) 0.6
    let valleyWidth := width * 0.8
    let valleyDepth := min (3 + adjustedDifficulty * 2) 6
    let valleyCenter := (startX + endX) / 2
    let valleyStart := valleyCenter - valleyWidth / 2
    let valleyEnd := valleyCenter + valleyWidth / 2
    if x < valleyStart then
      generateHills jm st fuel x startX valleyStart (adjustedDifficulty * 0.3)
    else if x < valleyEnd then
      let baseHeight :=
        generateHills jm st fuel valleyStart startX valleyStart
          (adjustedDifficulty * 0.3)
      let t := (x - valleyStart) / valleyWidth
      let valleyShape := (1 - jm.cos (jsPI * 2 * t)) / 2
      let irregularities := jm.sin (x * 0.5) * 0.3 + jm.cos (x * 0.3) * 0.2
      baseHeight - valleyDepth * (1 - valleyShape) + irregularities * 0.3
    else
      generateHills jm st fuel x valleyEnd endX (adjustedDifficulty * 0.3)

/-- `getTerrainHeightAt(x)` (part_004 lines 1015–1059): locate the first
covering segment and cubic-interpolate; `none` models the `null` returned
on a `height === null` sample; the fallback invokes `generateHills` on a
±10 span at difficulty 0.1.  The method performs no assignment to any
instance field, so it is embedded as a pure read of `TState`. -/
def getTerrainHeightAt (jm : JsMath) (st : TState) :
    ℕ → ℚ → Option ℚ
  | 0, _ => some 0
  | fuel + 1, x =>
    match st.terrainMeshes.find?
        (fun seg => decide (x ≥ seg.startX) &&
          decide (x < seg.startX + segmentWidth)) with
    | some seg =>
        match seg.points with
        | none => some 0
        | some pts =>
            if pts.length = 0 then some 0
            else
              let normalizedX := (x - seg.startX) / segmentWidth
              let idx := (Int.floor (normalizedX * ((pts.length : ℚ) - 1))).toNat
              if (pts.get? idx).map SamplePoint.height = some none then none
              else if idx < pts.length - 1 then
                let x1 := seg.startX +
                  ((idx : ℚ) / ((pts.length : ℚ) - 1)) * segmentWidth
                let x2 := seg.startX +
                  (((idx : ℚ) + 1) / ((pts.length : ℚ) - 1)) * segmentWidth
                let y1 := ((pts.get? idx).getD default).y
                let y2 := ((pts.get? (idx + 1)).getD default).y
                let t := (x - x1) / (x2 - x1)
                some (y1 * (1 - cubicInterpolation t) +
                  y2 * cubicInterpolation t)
              else some (((pts.get? idx).getD default).y)
    | none => some (generateHills jm st fuel x (x - 10) (x + 10) 0.1)

end

/-- The interior smoothing formula of `smoothSegmentPoints` applied to the
frozen list `originalHeights`: for `2 ≤ i < n - 2` a triangular-weighted
window sum (`weight = 1 - |j|/(halfWindow+1)`) divided by `windowSize = 5`;
all other indices keep their original height.  Note the source divides by
the window size 5 although the five weights sum to 3. -/
def triSmooth (orig : List ℚ) : List ℚ :=
  (List.range orig.length).map fun (i : ℕ) =>
    if 2 ≤ i ∧ i + 2 < orig.length then
      ((List.range 5).foldl
        (fun (acc : ℚ) (j : ℕ) =>
          acc + (1 - |(j : ℚ) - 2| / 3) * orig.getD (i + j - 2) 0)
        0) / 5
    else orig.getD i 0

/-- The final loop of `smoothSegmentPoints`: find the (first) smoothed valid
point with the same `x` as `p` and, when `p` is a non-gap point, write its
smoothed height into both `y` and `height`. -/
def smoothWriteBack (newValid : List SamplePoint) (p : SamplePoint) :
    SamplePoint :=
  match newValid.find? (fun v => v.x == p.x) with
  | some v => if p.height.isSome then ⟨p.x, v.y, some v.y⟩ else p
  | none => p

/-- `smoothSegmentPoints(points)` (part_004 lines 2557–2592): filter out the
`null`-height points, smooth the remaining heights as a contiguous list via
`triSmooth`, then write the new heights back into the original array by
matching on the `x` coordinate.  (In the source the filtered array aliases
the original objects; for points with pairwise-distinct `x` the write-back
by `x`-lookup below is the same mutation.) -/
def smoothSegmentPoints (points : List SamplePoint) : List SamplePoint :=
  if points.length < 5 then points
  else if (points.filter fun p => p.height.isSome).length < 5 then points
  else
    points.map (smoothWriteBack
      (List.zipWith (fun p yNew => { p with y := yNew })
        (points.filter fun p => p.height.isSome)
        (triSmooth ((points.filter fun p => p.height.isSome).map (·.y)))))

/-- `nbPoints = 30` in part_004 `createTerrainSegment`. -/
def nbPoints : ℕ := 30

/-- The `switch (chunkType)` of part_004 `createTerrainSegment` producing the
raw generator height at sample index `i` (the result is `none` only when
`generateGap` returns `null`). -/
def segmentPointRaw (jm : JsMath) (st : TState) (fuel : ℕ)
    (chunkType : ChunkType) (startX difficulty : ℚ) (i : ℕ) : Option ℚ :=
  let x := startX + ((i : ℚ) / ((nbPoints : ℚ) - 1)) * segmentWidth
  match chunkType with
  | .hills =>
      some (generateHills jm st fuel x startX (startX + segmentWidth) difficulty)
  | .plateau =>
      some (generatePlateau jm st fuel x startX (startX + segmentWidth) difficulty)
  | .ramp =>
      some (generateRamp jm st fuel x startX (startX + segmentWidth) difficulty)
  | .gap =>
      generateGap jm st fuel x startX (startX + segmentWidth) difficulty
  | .washboard =>
      some (generateWashboard jm st fuel x startX (startX + segmentWidth) difficulty)
  | .valley =>
      some (generateValley jm st fuel x startX (startX + segmentWidth) difficulty)

/-- The sampling loop of part_004 `createTerrainSegment` (lines 1084–1167),
before the `smoothSegmentPoints` pass: 30 evenly spaced samples; `isGap`
marks `0.3 < i/29 < 0.7` of a gap chunk; samples `i = 1..4` are blended
from `previousEndHeight` with weight `1 - quinticInterpolation(i/5)`.
(The `y0.getD 0` coercions mirror the JavaScript `null`-to-0 arithmetic
coercion; they are unreachable because `generateGap` returns `null` only
strictly inside the `isGap` index window.)  Note the first sample `i = 0`
receives no blend. -/
def buildPoints (jm : JsMath) (st : TState) (fuel : ℕ)
    (chunkType : ChunkType) (startX difficulty : ℚ)
    (previousEndHeight : Option ℚ) : List SamplePoint :=
  (List.range nbPoints).map fun (i : ℕ) =>
    let x := startX + ((i : ℚ) / ((nbPoints : ℚ) - 1)) * segmentWidth
    let normalizedX := (i : ℚ) / ((nbPoints : ℚ) - 1)
    let isGap := chunkType = .gap ∧ normalizedX > 0.3 ∧ normalizedX < 0.7
    let y0 := segmentPointRaw jm st fuel chunkType startX difficulty i
    let y : Option ℚ :=
      match previousEndHeight with
      | some pe =>
          if 0 < i ∧ i < 5 then
            let blendFactor := 1 - quinticInterpolation ((i : ℚ) / 5)
            some (pe * blendFactor + y0.getD 0 * (1 - blendFactor))
          else y0
      | none => y0
    if isGap then { x := x, y := -24, height := none }
    else { x := x, y := y.getD 0, height := y }

/-- `previousEndHeight` in part_004 `createTerrainSegment`: the `height` of
the last point of the *last stored* segment, `null` when the store is
empty.  (If the last segment's points array were missing or empty the
source would throw — caught by the caller's `try`; modelled as `null`.) -/
def previousEndHeightOf (meshes : List Segment) : Option ℚ :=
  match meshes.getLast? with
  | some seg =>
      match seg.points with
      | some pts =>
          match pts.getLast? with
          | some p => p.height
          | none => none
      | none => none
  | none => none

/-- The `seededRandom()` draws performed by `createBackgroundPhysics`
(part_004 lines 1404–1500): for each of 2 sides × 3 depth levels × 3
subsegments, one draw iff the subsegment contains a non-null point. -/
def backgroundPhysicsDraws (pts : List SamplePoint) : ℕ :=
  let len := pts.length
  let subDraw (i : ℕ) : ℕ :=
    let startIdx := (i * len) / 3
    let endIdx := ((i + 1) * len) / 3
    if 0 < ((pts.take endIdx).drop startIdx).countP (fun p => p.height.isSome)
    then 1 else 0
  6 * ((List.range 3).foldl (fun acc i => acc + subDraw i) 0)

/-- The `seededRandom()` draws performed by `addTerrainDecorations`
(part_004 lines 2174–2433): `getRandomPoint` draws once per rock/tree loop
iteration when `availablePoints` is non-empty; rock/tree counts are
`floor(min(len,40) * density * zoneDensity * terrainMultiplier * zoneWidth/5)`
over the five placement zones (widths 6, 5, 5, 15, 15; zone densities 0.3,
1.0, 1.0, 2.0, 2.0; rocks in all five zones, trees in the last four; the
sign branch draws from `Math.random` only). -/
def decorationDraws (pts : List SamplePoint) (chunkType : ChunkType) : ℕ :=
  let availableCount :=
    (List.range pts.length).countP fun i =>
      2 < i ∧ i < pts.length - 3 ∧ (pts.getD i default).height.isSome
  if availableCount = 0 then 0
  else
    let terrainMultiplier : ℚ :=
      match chunkType with
      | .hills => 1.8
      | .plateau => 1.5
      | .ramp => 0.8
      | .washboard => 0.6
      | .valley => 1.0
      | .gap => 1.2
    let nb : ℚ := min (pts.length : ℚ) 40
    let cnt (density zoneDensity zoneWidth : ℚ) : ℕ :=
      (Int.floor (nb * density * zoneDensity * terrainMultiplier *
        (zoneWidth / 5))).toNat
    cnt 0.1 0.3 6 +
      (cnt 0.1 1.0 5 + cnt 0.1 1.0 5) +
      (cnt 0.1 1.0 5 + cnt 0.1 1.0 5) +
      (cnt 0.1 2.0 15 + cnt 0.1 2.0 15) +
      (cnt 0.1 2.0 15 + cnt 0.1 2.0 15)

/-- `createTerrainSegment(startX)` (part_004 lines 1061–1234): select the
chunk type (one LCG draw), sample and blend the 30 points, smooth them,
perform the physics/decoration sub-steps (which only advance the LCG in
the modelled state), and append the segment to `terrainMeshes`. -/
def createTerrainSegment (jm : JsMath) (st : TState) (startX : ℚ)
    (fuel : ℕ) : TState × Segment :=
  let difficulty := min 0.99 (max 0 (|startX| / 5000))
  let (seed1, chunkType) := selectChunkType st.seed difficulty
  let st1 : TState := { st with seed := seed1 }
  let previousEndHeight := previousEndHeightOf st.terrainMeshes
  let rawPoints :=
    buildPoints jm st1 fuel chunkType startX difficulty previousEndHeight
  let points := smoothSegmentPoints rawPoints
  let seed2 := advanceSeed seed1
    (backgroundPhysicsDraws points + decorationDraws points chunkType)
  let seg : Segment :=
    { startX := startX, points := some points, chunkType := chunkType }
  ({ st1 with seed := seed2, terrainMeshes := st.terrainMeshes ++ [seg] }, seg)

/-- Build a sequence of segments at the given start positions, in order
(the way a host drives `createTerrainSegment`). -/
def buildRun (jm : JsMath) : TState → List ℚ → ℕ → TState × List Segment
  | st, [], _ => (st, [])
  | st, x :: xs, fuel =>
      let (st', seg) := createTerrainSegment jm st x fuel
      let (st'', segs) := buildRun jm st' xs fuel
      (st'', seg :: segs)

/-- JavaScript numbers as seen by the `update` entry guards: a finite
rational or one of the three non-finite values. -/
inductive JSNum where
  | num (q : ℚ) | nan | posInf | negInf
deriving DecidableEq, Repr

/-- `Math.floor(x / this.segmentWidth)` in JavaScript arithmetic:
`floor(NaN) = NaN`, `floor(±∞/40) = ±∞`. -/
def JSNum.floorDivW : JSNum → JSNum
  | num q => num ((Int.floor (q / segmentWidth) : ℤ) : ℚ)
  | nan => nan
  | posInf => posInf
  | negInf => negInf

/-- `isNaN(v)`. -/
def JSNum.isNaN : JSNum → Bool
  | nan => true
  | _ => false

/-- The JavaScript comparison `v < 0` (false for `NaN` and `+∞`). -/
def JSNum.ltZero : JSNum → Bool
  | num q => decide (q < 0)
  | negInf => true
  | posInf => false
  | nan => false

/-- The stop test of the generate-ahead loop,
`lastSegmentIndex >= currentSegmentIndex + segmentsAhead` in JavaScript
arithmetic/comparison (`lastSegmentIndex` is always finite; any finite
value compares `false` against `+∞ + 5 = +∞`, and `>=` is `false` against
`NaN`). -/
def jsStopCheck (lastIdx : ℚ) : JSNum → Bool
  | .num c => decide (lastIdx ≥ c + 5)
  | .posInf => false
  | .negInf => true
  | .nan => false

/-- The JavaScript comparison `currentSegmentIndex > segmentsBehind`
(with `segmentsBehind = 5`). -/
def jsGtFive : JSNum → Bool
  | .num c => decide (c > 5)
  | .posInf => true
  | .negInf => false
  | .nan => false

/-- The JavaScript comparison
`firstSegmentIndex < currentSegmentIndex - segmentsBehind`. -/
def jsLtSub5 (fIdx : ℚ) : JSNum → Bool
  | .num c => decide (fIdx < c - 5)
  | .posInf => true
  | .negInf => false
  | .nan => false

/-- The duplicate-elimination pass of `update` (part_004 lines 1628–1649):
keep the first segment seen for each `startX`. -/
def dedupSegments : List Segment → Finset ℚ → List Segment
  | [], _ => []
  | s :: rest, seen =>
      if s.startX ∈ seen then dedupSegments rest seen
      else s :: dedupSegments rest (insert s.startX seen)

/-- The `while (true)` generate-ahead loop of `update` (part_004 lines
1657–1693), with explicit fuel: builds at `lastStartX + segmentWidth` (or 0
on an empty store) unless that `startX` is already in
`existingSegmentsStartX`, in which case the loop body changes nothing (the
source bumps a local variable that the next iteration recomputes, so the
loop can only spin).  The Boolean of `generateAhead` records whether the
`break` was reached; when it is `false` the source loop has not terminated
and the remainder of the tick is unreachable.  `lastSegmentIndex` is the
loop's `Math.floor(lastStartX / segmentWidth)` (or −1 on an empty store). -/
def lastSegmentIndex (st : TState) : ℚ :=
  match st.terrainMeshes.getLast? with
  | some s => ((Int.floor (s.startX / segmentWidth) : ℤ) : ℚ)
  | none => -1

/-- `nextStartX` of the generate-ahead loop body: `lastStartX + segmentWidth`,
or 0 for an empty store. -/
def nextBuildX (st : TState) : ℚ :=
  match st.terrainMeshes.getLast? with
  | some s => s.startX + segmentWidth
  | none => 0

def generateAhead (jm : JsMath) (currentIdx : JSNum) (buildFuel : ℕ) :
    ℕ → TState → Finset ℚ → TState × Finset ℚ × Bool
  | 0, st, xs => (st, xs, false)
  | fuel + 1, st, xs =>
      if jsStopCheck (lastSegmentIndex st) currentIdx then (st, xs, true)
      else if nextBuildX st ∈ xs then
        generateAhead jm currentIdx buildFuel fuel st xs
      else
        generateAhead jm currentIdx buildFuel fuel
          (createTerrainSegment jm st (nextBuildX st) buildFuel).1
          (insert (nextBuildX st) xs)

/-- The evict-behind loop of `update` (part_004 lines 1700–1727): while more
than `segmentsAhead + segmentsBehind = 10` segments are stored and the
current index exceeds `segmentsBehind = 5`, drop the earliest segment if
its index is below `currentSegmentIndex - segmentsBehind`. -/
def evictBehind (currentIdx : JSNum) :
    List Segment → Finset ℚ → List Segment × Finset ℚ
  | [], xs => ([], xs)
  | first :: rest, xs =>
      if (first :: rest).length > 10 && jsGtFive currentIdx then
        if jsLtSub5 ((Int.floor (first.startX / segmentWidth) : ℤ) : ℚ)
            currentIdx then
          evictBehind currentIdx rest (xs.erase first.startX)
        else (first :: rest, xs)
      else (first :: rest, xs)

/-- The self-heal step of `update` (part_004 lines 1730–1747): if no stored
segment covers the tracked x, force-build one at the floor-aligned start
unless that `startX` is already known.  Only reachable with a finite index
(the generate-ahead loop cannot `break` otherwise), so the non-finite
cases leave the state unchanged. -/
def selfHeal (jm : JsMath) (pos : JSNum) (buildFuel : ℕ) (st : TState)
    (xs : Finset ℚ) : TState :=
  match pos with
  | .num q =>
      if st.terrainMeshes.any (fun s =>
          decide (s.startX ≤ q) && decide (s.startX + segmentWidth > q)) then st
      else if ((Int.floor (q / segmentWidth) : ℤ) : ℚ) * segmentWidth ∈ xs
        then st
      else (createTerrainSegment jm st
        (((Int.floor (q / segmentWidth) : ℤ) : ℚ) * segmentWidth) buildFuel).1
  | _ => st

/-- `update(vehiclePosition)` (part_004 lines 1597–1749) restricted to the
modelled state: entry guards, duplicate elimination, generate-ahead,
evict-behind, self-heal.  `vehiclePosition = none` models a missing
position or a non-number `x` (`typeof vehiclePosition.x !== 'number'`).
The LOD pass only touches rendering flags and is outside the model. -/
def update (jm : JsMath) (st : TState) (vehiclePosition : Option JSNum)
    (fuel : ℕ) : TState :=
  match vehiclePosition with
  | none => st
  | some x =>
      let currentSegmentIndex := x.floorDivW
      if currentSegmentIndex.isNaN then st
      else if currentSegmentIndex.ltZero then st
      else
        let xs0 : Finset ℚ := (st.terrainMeshes.map (·.startX)).toFinset
        let st1 : TState :=
          { st with terrainMeshes := dedupSegments st.terrainMeshes ∅ }
        let r := generateAhead jm currentSegmentIndex fuel fuel st1 xs0
        if !r.2.2 then r.1
        else
          let e := evictBehind currentSegmentIndex r.1.terrainMeshes r.2.1
          let st3 : TState := { r.1 with terrainMeshes := e.1 }
          selfHeal jm x fuel st3 e.2

/-- `getTerrainHeightAt` as a state transformer.  The method body
(part_004 lines 1015–1059, and every function it calls) contains no
assignment to any instance field, so its effect on the modelled mutable
state is the identity; this wrapper records the (state, result) pair the
way a stateful embedding of the method would. -/
def getTerrainHeightAtRun (jm : JsMath) (st : TState) (fuel : ℕ) (x : ℚ) :
    TState × Option ℚ :=
  (st, getTerrainHeightAt jm st fuel x)

/-- `true` exactly when the entry guards of `update` pass (the tick
proceeds past the early `return`s). -/
def updateProceeds : Option JSNum → Bool
  | none => false
  | some x => !x.floorDivW.isNaN && !x.floorDivW.ltZero

/-- A concrete admissible host (a host whose `Math.sin`/`Math.cos` both
return 0) used to instantiate closed evaluations. -/
def hostZero : JsMath := ⟨fun _ => 0, fun _ => 0⟩

/-- A concrete admissible host whose `Math.sin`/`Math.cos` are the identity,
used to exhibit value-level dependence of `noise` on the LCG state. -/
def hostId : JsMath := ⟨fun q => q, fun q => q⟩

/-- The raw hills height at `x = 40` for `hostZero` and difficulty
`40/5000`: with `sin ≡ 0` every `noise` value is `-1`, so the height is
`-1.3 * amplitude` with `amplitude = 1.2 + min(0.6 * 40/5000, 0.5) * 1.3`. -/
def c3RawHeight : ℚ := -98007 / 62500

/-- A previous segment for the first-sample analysis: its last sample height
equals the raw generator output at the next segment's start (so the hills
rate-limiter does not fire), and its next-to-last sample differs. -/
def c3PrevPoints : List SamplePoint :=
  (List.range 30).map fun (i : ℕ) =>
    if i = 28 then ⟨28, c3RawHeight + 1, some (c3RawHeight + 1)⟩
    else if i = 29 then ⟨29, c3RawHeight, some c3RawHeight⟩
    else ⟨(i : ℚ), 0, some 0⟩

/-- A terrain state holding one previous segment on `[0, 40)`, adjacent to a
build at `startX = 40`. -/
def c3State : TState :=
  { seed := 0, noiseOffsetX := 0,
    terrainMeshes := [⟨0, some c3PrevPoints, .hills⟩] }

/-- A store of six segments at `startX = 0, 40, …, 200` (no points needed:
the update witness tick neither builds nor queries them). -/
def c6Segments : List Segment :=
  (List.range 6).map fun (i : ℕ) => ⟨40 * (i : ℚ), none, .hills⟩

/-- A state whose window already satisfies the generate-ahead stop condition
for a tracked position at the origin. -/
def c6State : TState := ⟨0, 0, c6Segments⟩

/-- A state containing one segment whose `points` array is missing. -/
def c10State : TState := ⟨0, 0, [⟨0, none, .hills⟩]⟩

/-! ## C1 — determinism of segment building -/

/-- C1: for a fixed seed, two independently constructed terrain instances
that build the same sequence of segment start positions in the same order
produce bit-identical points arrays and identical chunk-type sequences
(for every host and every fuel). -/
theorem terrain_build_deterministic (jm : JsMath) (seed : ℕ) (xs : List ℚ)
    (fuel : ℕ) (inst1 inst2 : TState)
    (h1 : inst1 = initState seed) (h2 : inst2 = initState seed) :
    (buildRun jm inst1 xs fuel).2.map Segment.points =
      (buildRun jm inst2 xs fuel).2.map Segment.points ∧
    (buildRun jm inst1 xs fuel).2.map Segment.chunkType =
      (buildRun jm inst2 xs fuel).2.map Segment.chunkType := by
  subst h1; subst h2; exact ⟨rfl, rfl⟩

/-- Witness for C1 at seed 42, building segments at 0 and 40. -/
theorem terrain_build_deterministic_witness :
    (buildRun hostZero (initState 42) [0, 40] 3).2.map Segment.points =
      (buildRun hostZero (initState 42) [0, 40] 3).2.map Segment.points ∧
    (buildRun hostZero (initState 42) [0, 40] 3).2.map Segment.chunkType =
      (buildRun hostZero (initState 42) [0, 40] 3).2.map Segment.chunkType :=
  terrain_build_deterministic hostZero 42 [0, 40] 3 _ _ rfl rfl

/-! ## C2 — the positional noise function is coupled to the RNG stream -/

/-- C2 (code bug): `noise(x)` is *not* a pure function of `x` and the
instance seed.  It reads the current mutable LCG state `this.seed`: after a
single interleaved `seededRandom()` draw (state 42 → 206659), the hash
index fed to `Math.sin` changes, and under the admissible host `hostId`
the returned noise value itself changes for the same `x = 0.5`. -/
theorem noise_coupled_to_rng_stream :
    noiseH1 42 0.5 ≠ noiseH1 (seededRandomStep 42) 0.5 ∧
    noise hostId 42 0.5 ≠ noise hostId (seededRandomStep 42) 0.5 := by
  with_unfolding_all decide

/-! ## C5 — difficulty thresholds of chunk-type selection -/

/-- C5: for every RNG state and difficulty, `selectChunkType` returns only
`hills` or `plateau` below difficulty 0.15 (in particular never
`washboard`), and never returns `gap` or `valley` below difficulty 0.3. -/
theorem selectChunkType_thresholds (s : ℕ) (d : ℚ) :
    (d < 0.15 → (selectChunkType s d).2 = ChunkType.hills ∨
      (selectChunkType s d).2 = ChunkType.plateau) ∧
    (d < 0.3 → (selectChunkType s d).2 ≠ ChunkType.gap ∧
      (selectChunkType s d).2 ≠ ChunkType.valley) := by
  unfold selectChunkType seededRandom selectChunkTypePick
  constructor
  · intro hd
    simp only [hd, if_pos]
    split_ifs <;> simp
  · intro hd
    by_cases h1 : d < 0.15
    · simp only [h1, if_pos]
      split_ifs <;> simp
    · simp only [h1, if_neg, if_pos hd, not_false_eq_true]
      split_ifs <;> simp

/-- Witness for C5 at state 0 and difficulty 0.1 (also inside the 0.3
band). -/
theorem selectChunkType_thresholds_witness :
    ((selectChunkType 0 0.1).2 = ChunkType.hills ∨
      (selectChunkType 0 0.1).2 = ChunkType.plateau) ∧
    ((selectChunkType 0 0.1).2 ≠ ChunkType.gap ∧
      (selectChunkType 0 0.1).2 ≠ ChunkType.valley) :=
  ⟨(selectChunkType_thresholds 0 0.1).1 (by norm_num),
    (selectChunkType_thresholds 0 0.1).2 (by norm_num)⟩

/-! ## C9 — height query fallback is read-only hills generation -/

/-- C9: for every `x` not covered by any stored segment, the height query
answers by invoking the hills generator on the span `[x-10, x+10]` at the
fixed difficulty 0.1, and the modelled instance state (store and RNG seed)
is returned unchanged — no segment is persisted. -/
theorem heightAt_fallback_hills_readonly (jm : JsMath) (st : TState)
    (fuel : ℕ) (x : ℚ)
    (h : ∀ seg ∈ st.terrainMeshes,
      ¬(x ≥ seg.startX ∧ x < seg.startX + segmentWidth)) :
    getTerrainHeightAtRun jm st (fuel + 1) x =
      (st, some (generateHills jm st fuel x (x - 10) (x + 10) 0.1)) := by
  have hf : st.terrainMeshes.find?
      (fun seg => decide (x ≥ seg.startX) &&
        decide (x < seg.startX + segmentWidth)) = none := by
    rw [List.find?_eq_none]
    intro seg hseg
    simpa using h seg hseg
  unfold getTerrainHeightAtRun
  simp only [getTerrainHeightAt, hf]

/-- Witness for C9: an empty store and `x = 5`. -/
theorem heightAt_fallback_hills_readonly_witness :
    getTerrainHeightAtRun hostZero (initState 0) 3 5 =
      (initState 0,
        some (generateHills hostZero (initState 0) 2 5 (5 - 10) (5 + 10) 0.1)) :=
  heightAt_fallback_hills_readonly hostZero (initState 0) 2 5 (by simp [initState])

/-! ## C10 — covered segment with missing or empty points -/

/-- C10: if the first stored segment covering `x` has a missing or empty
points array, `getTerrainHeightAt` returns the default height 0 (`some 0`,
not `null`), indistinguishable from genuine terrain at height 0. -/
theorem heightAt_empty_points_returns_zero (jm : JsMath) (st : TState)
    (fuel : ℕ) (x : ℚ) (seg : Segment)
    (hfind : st.terrainMeshes.find?
      (fun s => decide (x ≥ s.startX) &&
        decide (x < s.startX + segmentWidth)) = some seg)
    (hpts : seg.points = none ∨ seg.points = some []) :
    getTerrainHeightAt jm st (fuel + 1) x = some 0 := by
  simp only [getTerrainHeightAt, hfind]
  rcases hpts with h | h <;> simp [h]

/-- Witness for C10: a store whose only segment (covering `x = 5`) has no
points array. -/
theorem heightAt_empty_points_returns_zero_witness :
    getTerrainHeightAt hostZero c10State 3 5 = some 0 :=
  heightAt_empty_points_returns_zero hostZero c10State 2 5 ⟨0, none, .hills⟩
    (by with_unfolding_all decide) (Or.inl rfl)

/-! ## C7 — invalid tracked position handling (corrected) -/

/-- C7 counterexample: for the tracked position `x = +Infinity` the segment
index `floor(x/40) = +Infinity` is non-finite, yet the claimed early abort
does not happen: `isNaN(Infinity)` is false and `Infinity < 0` is false, so
the tick proceeds and mutates the segment store (the generate-ahead loop
builds, and can never reach its stop condition). -/
theorem update_positive_infinity_mutates :
    (update hostZero (initState 0) (some JSNum.posInf) 1).terrainMeshes.length ≠
      (initState 0).terrainMeshes.length := by
  with_unfolding_all decide

/-- C7 amended: the update tick aborts early with the state completely
unchanged when the position is missing or non-numeric, when the segment
index is NaN (`x = NaN`), or when it is negative (including `x = -∞`);
the `x = +Infinity` case (non-finite, non-negative index) is *not*
guarded. -/
theorem update_invalid_position_aborts (jm : JsMath) (st : TState)
    (fuel : ℕ) :
    update jm st none fuel = st ∧
    update jm st (some JSNum.nan) fuel = st ∧
    update jm st (some JSNum.negInf) fuel = st ∧
    ∀ q : ℚ, q < 0 → update jm st (some (JSNum.num q)) fuel = st := by
  refine ⟨rfl, rfl, rfl, fun q hq => ?_⟩
  have hfloor : (⌊q / segmentWidth⌋ : ℤ) < 0 := by
    have : q / segmentWidth < 0 :=
      div_neg_of_neg_of_pos hq (by norm_num [segmentWidth])
    exact_mod_cast Int.floor_lt.2 (by exact_mod_cast this)
  have hcast : ((⌊q / segmentWidth⌋ : ℤ) : ℚ) < 0 := by exact_mod_cast hfloor
  simp [update, JSNum.floorDivW, JSNum.isNaN, JSNum.ltZero, hcast]

/-- Witness for C7 (amended) at seed 7 and `q = -3`. -/
theorem update_invalid_position_aborts_witness :
    update hostZero (initState 7) none 2 = initState 7 ∧
    update hostZero (initState 7) (some (JSNum.num (-3))) 2 = initState 7 :=
  ⟨(update_invalid_position_aborts hostZero (initState 7) 2).1,
    (update_invalid_position_aborts hostZero (initState 7) 2).2.2.2 (-3)
      (by norm_num)⟩

/-! ## C6 — no two stored segments share a `startX` after an update tick -/

theorem createTerrainSegment_meshes (jm : JsMath) (st : TState) (x : ℚ)
    (f : ℕ) :
    (createTerrainSegment jm st x f).1.terrainMeshes =
      st.terrainMeshes ++ [(createTerrainSegment jm st x f).2] := rfl

theorem createTerrainSegment_startX (jm : JsMath) (st : TState) (x : ℚ)
    (f : ℕ) : (createTerrainSegment jm st x f).2.startX = x := rfl

theorem dedupSegments_nodup (l : List Segment) (seen : Finset ℚ) :
    ((dedupSegments l seen).map Segment.startX).Nodup ∧
      ∀ k ∈ (dedupSegments l seen).map Segment.startX, k ∉ seen := by
  induction l generalizing seen with
  | nil => simp [dedupSegments]
  | cons s rest ih =>
      rw [dedupSegments]
      split
      · exact ih seen
      next hni =>
        obtain ⟨h1, h2⟩ := ih (insert s.startX seen)
        refine ⟨?_, ?_⟩
        · simp only [List.map_cons, List.nodup_cons]
          exact ⟨fun hmem => (h2 _ hmem) (Finset.mem_insert_self _ _), h1⟩
        · intro k hk
          simp only [List.map_cons, List.mem_cons] at hk
          rcases hk with rfl | hk
          · exact hni
          · exact fun hkseen => h2 k hk (Finset.mem_insert_of_mem hkseen)

theorem dedupSegments_sublist (l : List Segment) (seen : Finset ℚ) :
    (dedupSegments l seen).Sublist l := by
  induction l generalizing seen with
  | nil => simp [dedupSegments]
  | cons s rest ih =>
      rw [dedupSegments]
      split
      · exact (ih seen).trans (List.sublist_cons_self s rest)
      · exact (ih (insert s.startX seen)).cons₂ s

theorem generateAhead_preserves (jm : JsMath) (ci : JSNum) (bf : ℕ)
    (fuel : ℕ) :
    ∀ (st : TState) (xs : Finset ℚ),
      (st.terrainMeshes.map Segment.startX).Nodup →
      (∀ k ∈ st.terrainMeshes.map Segment.startX, k ∈ xs) →
      ((generateAhead jm ci bf fuel st xs).1.terrainMeshes.map
          Segment.startX).Nodup ∧
        ∀ k ∈ (generateAhead jm ci bf fuel st xs).1.terrainMeshes.map
          Segment.startX, k ∈ (generateAhead jm ci bf fuel st xs).2.1 := by
  induction fuel with
  | zero => intro st xs h1 h2; exact ⟨h1, h2⟩
  | succ fuel ih =>
      intro st xs h1 h2
      rw [generateAhead]
      split
      · exact ⟨h1, h2⟩
      · split
        · exact ih st xs h1 h2
        next hmem =>
          apply ih
          · rw [createTerrainSegment_meshes]
            simp only [List.map_append, List.map_cons, List.map_nil,
              createTerrainSegment_startX]
            rw [List.nodup_append]
            refine ⟨h1, List.nodup_singleton _, ?_⟩
            intro k hk hk'
            simp only [List.mem_singleton] at hk'
            subst hk'
            exact hmem (h2 _ hk)
          · intro k hk
            rw [createTerrainSegment_meshes] at hk
            simp only [List.map_append, List.map_cons, List.map_nil,
              createTerrainSegment_startX, List.mem_append,
              List.mem_singleton] at hk
            rcases hk with hk | rfl
            · exact Finset.mem_insert_of_mem (h2 _ hk)
            · exact Finset.mem_insert_self _ _

theorem evictBehind_preserves (ci : JSNum) (l : List Segment) :
    ∀ (xs : Finset ℚ),
      (l.map Segment.startX).Nodup →
      (∀ k ∈ l.map Segment.startX, k ∈ xs) →
      ((evictBehind ci l xs).1.map Segment.startX).Nodup ∧
        ∀ k ∈ (evictBehind ci l xs).1.map Segment.startX,
          k ∈ (evictBehind ci l xs).2 := by
  induction l with
  | nil => intro xs h1 h2; rw [evictBehind]; exact ⟨h1, h2⟩
  | cons first rest ih =>
      intro xs h1 h2
      rw [evictBehind]
      split
      · split
        · apply ih
          · simp only [List.map_cons, List.nodup_cons] at h1
            exact h1.2
          · intro k hk
            simp only [List.map_cons, List.nodup_cons] at h1
            refine Finset.mem_erase.2 ⟨?_, h2 k (by simp [hk])⟩
            rintro rfl
            exact h1.1 hk
        · exact ⟨h1, h2⟩
      · exact ⟨h1, h2⟩

theorem selfHeal_nodup (jm : JsMath) (pos : JSNum) (bf : ℕ) (st : TState)
    (xs : Finset ℚ)
    (h1 : (st.terrainMeshes.map Segment.startX).Nodup)
    (h2 : ∀ k ∈ st.terrainMeshes.map Segment.startX, k ∈ xs) :
    ((selfHeal jm pos bf st xs).terrainMeshes.map Segment.startX).Nodup := by
  cases pos with
  | num q =>
      rw [selfHeal]
      split
      · exact h1
      · split
        · exact h1
        next hmem =>
          rw [createTerrainSegment_meshes]
          simp only [List.map_append, List.map_cons, List.map_nil,
            createTerrainSegment_startX]
          rw [List.nodup_append]
          refine ⟨h1, List.nodup_singleton _, ?_⟩
          intro k hk hk'
          simp only [List.mem_singleton] at hk'
          subst hk'
          exact hmem (h2 _ hk)
  | nan => exact h1
  | posInf => exact h1
  | negInf => exact h1

/-- C6: after any update tick whose entry guards pass, the segment store
contains no two segments with equal `startX` — regardless of the input
state, the host, the tracked position, and the loop fuel. -/
theorem update_no_duplicate_startX (jm : JsMath) (st : TState)
    (pos : Option JSNum) (fuel : ℕ) (h : updateProceeds pos = true) :
    ((update jm st pos fuel).terrainMeshes.map Segment.startX).Nodup := by
  cases pos with
  | none => simp [updateProceeds] at h
  | some x =>
      simp only [updateProceeds, Bool.and_eq_true, Bool.not_eq_true'] at h
      rw [update]
      simp only [h.1, h.2, Bool.false_eq_true, if_false]
      have hd := dedupSegments_nodup st.terrainMeshes ∅
      have hsub : ∀ k ∈ (dedupSegments st.terrainMeshes ∅).map Segment.startX,
          k ∈ (st.terrainMeshes.map Segment.startX).toFinset := by
        intro k hk
        rw [List.mem_toFinset]
        exact List.map_subset _ (dedupSegments_sublist _ _).subset hk
      have hga := generateAhead_preserves jm x.floorDivW fuel fuel
        { st with terrainMeshes := dedupSegments st.terrainMeshes ∅ }
        ((st.terrainMeshes.map (·.startX)).toFinset) hd.1 hsub
      split
      · exact hga.1
      · have hev := evictBehind_preserves x.floorDivW _ _ hga.1 hga.2
        exact selfHeal_nodup jm x fuel _ _ hev.1 hev.2

/-- Witness for C6: a six-segment window at the origin with the guards
passing. -/
theorem update_no_duplicate_startX_witness :
    updateProceeds (some (JSNum.num 0)) = true ∧
    ((update hostZero c6State (some (JSNum.num 0)) 1).terrainMeshes.map
      Segment.startX).Nodup :=
  ⟨by with_unfolding_all decide,
    update_no_duplicate_startX hostZero c6State (some (JSNum.num 0)) 1
      (by with_unfolding_all decide)⟩

/-! ## C8 — the smoothing pass (corrected) -/

theorem triSmooth_length (ys : List ℚ) : (triSmooth ys).length = ys.length := by
  simp [triSmooth]

theorem triSmooth_getElem_boundary (ys : List ℚ) (i : ℕ)
    (h : ¬(2 ≤ i ∧ i + 2 < ys.length)) : (triSmooth ys)[i]? = ys[i]? := by
  rcases Nat.lt_or_ge i ys.length with hi | hi
  · rw [triSmooth, List.getElem?_map, List.getElem?_range (by simpa using hi)]
    rw [Option.map_some', if_neg h, List.getD_eq_getElem?_getD,
      List.getElem?_eq_getElem hi]
    rfl
  · rw [List.getElem?_eq_none (by rw [triSmooth_length]; exact hi),
      List.getElem?_eq_none hi]

theorem triSmooth_getElem_interior (ys : List ℚ) (i : ℕ) (h2 : 2 ≤ i)
    (hi : i + 2 < ys.length) :
    (triSmooth ys)[i]? = some
      ((1 / 3 * ys.getD (i - 2) 0 + 2 / 3 * ys.getD (i - 1) 0 + ys.getD i 0 +
        2 / 3 * ys.getD (i + 1) 0 + 1 / 3 * ys.getD (i + 2) 0) / 5) := by
  have hi' : i < ys.length := by omega
  rw [triSmooth, List.getElem?_map, List.getElem?_range (by simpa using hi')]
  rw [Option.map_some', if_pos ⟨h2, hi⟩]
  congr 1
  have hr : List.range 5 = [0, 1, 2, 3, 4] := rfl
  rw [hr]
  simp only [List.foldl_cons, List.foldl_nil]
  have e0 : i + 0 - 2 = i - 2 := by omega
  have e1 : i + 1 - 2 = i - 1 := by omega
  have e2 : i + 2 - 2 = i := by omega
  have e3 : i + 3 - 2 = i + 1 := by omega
  have e4 : i + 4 - 2 = i + 2 := by omega
  rw [e0, e1, e2, e3, e4]
  norm_num

theorem triSmooth_short (ys : List ℚ) (h : ys.length < 5) :
    triSmooth ys = ys := by
  apply List.ext_getElem?
  intro i
  exact triSmooth_getElem_boundary ys i (by omega)

theorem smoothWriteBack_of_find (nv : List SamplePoint) (p v : SamplePoint)
    (h : nv.find? (fun w => w.x == p.x) = some v)
    (hp : p.height.isSome) : smoothWriteBack nv p = ⟨p.x, v.y, some v.y⟩ := by
  rw [smoothWriteBack, h]
  simp [hp]

theorem smoothWriteBack_height_isSome (nv : List SamplePoint)
    (p : SamplePoint) :
    (smoothWriteBack nv p).height.isSome = p.height.isSome := by
  rw [smoothWriteBack]
  cases h : nv.find? (fun v => v.x == p.x) with
  | some v =>
      by_cases hp : p.height.isSome <;> simp [hp]
  | none => rfl

theorem smoothWriteBack_gap (nv : List SamplePoint) (p : SamplePoint)
    (hp : p.height = none) : smoothWriteBack nv p = p := by
  rw [smoothWriteBack]
  cases h : nv.find? (fun v => v.x == p.x) with
  | some v => simp [hp]
  | none => rfl

theorem smoothSegmentPoints_length (points : List SamplePoint) :
    (smoothSegmentPoints points).length = points.length := by
  rw [smoothSegmentPoints]
  split
  · rfl
  · split
    · rfl
    · simp

theorem smoothSegmentPoints_height_isSome (points : List SamplePoint)
    (i : ℕ) :
    ((smoothSegmentPoints points)[i]?.map (fun p => p.height.isSome)) =
      (points[i]?.map (fun p => p.height.isSome)) := by
  rw [smoothSegmentPoints]
  split
  · rfl
  · split
    · rfl
    · rw [List.getElem?_map]
      cases h : points[i]? with
      | some p => simp [smoothWriteBack_height_isSome]
      | none => rfl

theorem zipWith_setY_map_x :
    ∀ (l : List SamplePoint) (ys : List ℚ), ys.length = l.length →
      (List.zipWith (fun p yNew => { p with y := yNew }) l ys).map
          SamplePoint.x = l.map SamplePoint.x := by
  intro l
  induction l with
  | nil => intro ys _; simp
  | cons a tl ih =>
      intro ys h
      cases ys with
      | nil => simp at h
      | cons b tb =>
          simp only [List.zipWith_cons_cons, List.map_cons]
          rw [ih tb (by simpa using h)]

theorem zipWith_getElem_pair (f : SamplePoint → ℚ → SamplePoint) :
    ∀ (l : List SamplePoint) (ys : List ℚ) (k : ℕ),
      (List.zipWith f l ys)[k]? =
        match l[k]?, ys[k]? with
        | some a, some b => some (f a b)
        | _, _ => none := by
  intro l
  induction l with
  | nil => intro ys k; cases ys <;> cases k <;> simp
  | cons a tl ih =>
      intro ys k
      cases ys with
      | nil => cases k <;> simp
      | cons b tb =>
          cases k with
          | zero => simp
          | succ k =>
              simp only [List.zipWith_cons_cons, List.getElem?_cons_succ]
              exact ih tb k

theorem find?_keyed :
    ∀ (l l' : List SamplePoint) (k : ℕ) (hk : k < l.length),
      l'.map SamplePoint.x = l.map SamplePoint.x →
      ((l.map SamplePoint.x).Nodup) →
      (l'.find? fun v => v.x == (l.get ⟨k, hk⟩).x) = l'[k]? := by
  intro l
  induction l with
  | nil => intro l' k hk; exact absurd hk (Nat.not_lt_zero k)
  | cons a tl ih =>
      intro l' k hk hkeys hnd
      cases l' with
      | nil => simp at hkeys
      | cons b tb =>
          simp only [List.map_cons, List.cons.injEq] at hkeys
          obtain ⟨hbx, htx⟩ := hkeys
          simp only [List.map_cons, List.nodup_cons] at hnd
          cases k with
          | zero =>
              have hb : (b.x == (List.get (a :: tl) ⟨0, hk⟩).x) = true := by
                rw [beq_iff_eq]
                exact hbx
              rw [@List.find?_cons_of_pos _
                (fun v => v.x == (List.get (a :: tl) ⟨0, hk⟩).x) b tb hb]
              simp
          | succ k =>
              have hk' : k < tl.length := by simpa using hk
              have hxk : (tl.get ⟨k, hk'⟩).x ∈ tl.map SamplePoint.x :=
                List.mem_map_of_mem _ (List.get_mem tl k hk')
              have hne : ¬((fun v => v.x ==
                  (List.get (a :: tl) ⟨k + 1, hk⟩).x) b = true) := by
                show ¬((b.x == (tl.get ⟨k, hk'⟩).x) = true)
                rw [beq_iff_eq, hbx]
                intro hcontra
                apply hnd.1
                rw [hcontra]
                exact hxk
              have hstep := @List.find?_cons_of_neg _
                (fun v => v.x == (List.get (a :: tl) ⟨k + 1, hk⟩).x) b tb hne
              rw [hstep, List.getElem?_cons_succ]
              exact ih tb k hk' htx hnd.2

/-- C8 counterexample: `smoothSegmentPoints` is not a weighted average of the
original heights — on a constant profile of height 1 it changes the interior
point to 3/5 (the triangular weights sum to 3 but the source divides by the
window size 5). -/
theorem smoothSegmentPoints_const_changed :
    smoothSegmentPoints
        [⟨0, 1, some 1⟩, ⟨1, 1, some 1⟩, ⟨2, 1, some 1⟩, ⟨3, 1, some 1⟩,
          ⟨4, 1, some 1⟩] ≠
      [⟨0, 1, some 1⟩, ⟨1, 1, some 1⟩, ⟨2, 1, some 1⟩, ⟨3, 1, some 1⟩,
        ⟨4, 1, some 1⟩] := by
  with_unfolding_all decide

/-- C8 amended: for points with pairwise-distinct `x`, `smoothSegmentPoints`
(i) filters out the gap (`null`-height) points and smooths the remaining
heights as one contiguous list — so samples on opposite sides of a gap
boundary are combined into one window; (ii) on that filtered list each
interior index `2 ≤ i < n-2` becomes the triangular-weighted window sum
`(1/3, 2/3, 1, 2/3, 1/3)` divided by the window size 5 (the weights sum to
3, so a constant profile is scaled by 3/5, not preserved); (iii) all other
filtered indices — in particular the first two and last two valid samples —
and (iv) every gap point are left unchanged. -/
theorem smoothSegmentPoints_filtered_window (points : List SamplePoint)
    (hx : (points.map SamplePoint.x).Nodup) :
    (((smoothSegmentPoints points).filter fun p => p.height.isSome).map
        (fun p => p.y) =
      triSmooth (((points.filter fun p => p.height.isSome)).map
        (fun p => p.y))) ∧
    (∀ (ys : List ℚ) (i : ℕ), 2 ≤ i → i + 2 < ys.length →
      (triSmooth ys)[i]? = some
        ((1 / 3 * ys.getD (i - 2) 0 + 2 / 3 * ys.getD (i - 1) 0 +
          ys.getD i 0 + 2 / 3 * ys.getD (i + 1) 0 +
          1 / 3 * ys.getD (i + 2) 0) / 5)) ∧
    (∀ (ys : List ℚ) (i : ℕ), ¬(2 ≤ i ∧ i + 2 < ys.length) →
      (triSmooth ys)[i]? = ys[i]?) ∧
    (∀ i : ℕ, (points[i]?.map SamplePoint.height) = some none →
      (smoothSegmentPoints points)[i]? = points[i]?) := by
  refine ⟨?_, triSmooth_getElem_interior, triSmooth_getElem_boundary, ?_⟩
  · rw [smoothSegmentPoints]
    split
    next hshort =>
      rw [triSmooth_short]
      have h1 := List.length_filter_le (fun p => p.height.isSome) points
      rw [List.length_map]
      omega
    · split
      next hvshort =>
        rw [triSmooth_short]
        rw [List.length_map]
        omega
      next hvlong =>
        set valid := points.filter fun p => p.height.isSome with hvalid
        set nv := List.zipWith (fun p yNew => { p with y := yNew }) valid
          (triSmooth (valid.map (·.y))) with hnv
        rw [List.filter_map]
        have hPW : (fun p => ((smoothWriteBack nv p).height.isSome)) =
            (fun p : SamplePoint => p.height.isSome) := by
          funext p
          exact smoothWriteBack_height_isSome nv p
        rw [show ((fun p => p.height.isSome) ∘ smoothWriteBack nv) =
          (fun p : SamplePoint => p.height.isSome) from hPW]
        rw [List.map_map]
        apply List.ext_getElem?
        intro k
        rw [List.getElem?_map]
        have hlen : (triSmooth (valid.map (·.y))).length = valid.length := by
          rw [triSmooth_length, List.length_map]
        rcases Nat.lt_or_ge k valid.length with hk | hk
        · rw [List.getElem?_eq_getElem hk, Option.map_some']
          have hkeys : nv.map SamplePoint.x = valid.map SamplePoint.x := by
            rw [hnv]
            exact zipWith_setY_map_x valid _ hlen
          have hnd : (valid.map SamplePoint.x).Nodup := by
            have hsub : (valid.map SamplePoint.x).Sublist
                (points.map SamplePoint.x) :=
              (List.filter_sublist points).map SamplePoint.x
            exact hx.sublist hsub
          have hfind := find?_keyed valid nv k hk hkeys hnd
          have hklen : k < (triSmooth (valid.map (·.y))).length := by omega
          have hnvk : nv[k]? = some
              ⟨(valid.get ⟨k, hk⟩).x,
                (triSmooth (valid.map (·.y))).get ⟨k, hklen⟩,
                (valid.get ⟨k, hk⟩).height⟩ := by
            rw [hnv, zipWith_getElem_pair]
            rw [List.getElem?_eq_getElem hk,
              List.getElem?_eq_getElem hklen]
            rfl
          have hvalidk : (valid.get ⟨k, hk⟩).height.isSome := by
            have hmem : valid.get ⟨k, hk⟩ ∈ valid := List.get_mem valid k hk
            exact (List.mem_filter.1 hmem).2
          have hW := smoothWriteBack_of_find nv (valid.get ⟨k, hk⟩) _
            (hfind.trans hnvk) hvalidk
          show some ((smoothWriteBack nv (valid.get ⟨k, hk⟩)).y) = _
          rw [hW, List.getElem?_eq_getElem hklen]
          rfl
        · rw [List.getElem?_eq_none hk, Option.map_none',
            List.getElem?_eq_none (by omega)]
  · intro i hg
    rw [smoothSegmentPoints]
    split
    · rfl
    · split
      · rfl
      · rw [List.getElem?_map]
        cases hp : points[i]? with
        | some p =>
            rw [hp, Option.map_some'] at hg
            have : p.height = none := by
              simpa using hg
            rw [Option.map_some', smoothWriteBack_gap _ p this]
        | none => rfl

/-- Witness for C8 (amended) on a seven-point profile containing one gap
point. -/
theorem smoothSegmentPoints_filtered_window_witness :
    ((([⟨0, 1, some 1⟩, ⟨1, 1, some 1⟩, ⟨2, 1, some 1⟩, ⟨3, -24, none⟩,
        ⟨4, 2, some 2⟩, ⟨5, 2, some 2⟩, ⟨6, 2, some 2⟩] :
        List SamplePoint).map SamplePoint.x).Nodup) ∧
    (((smoothSegmentPoints [⟨0, 1, some 1⟩, ⟨1, 1, some 1⟩, ⟨2, 1, some 1⟩,
        ⟨3, -24, none⟩, ⟨4, 2, some 2⟩, ⟨5, 2, some 2⟩,
        ⟨6, 2, some 2⟩]).filter fun p => p.height.isSome).map (fun p => p.y) =
      triSmooth ((([⟨0, 1, some 1⟩, ⟨1, 1, some 1⟩, ⟨2, 1, some 1⟩,
        ⟨3, -24, none⟩, ⟨4, 2, some 2⟩, ⟨5, 2, some 2⟩,
        ⟨6, 2, some 2⟩] : List SamplePoint).filter
          fun p => p.height.isSome).map (fun p => p.y))) :=
  ⟨by with_unfolding_all decide,
    (smoothSegmentPoints_filtered_window _
      (by with_unfolding_all decide)).1⟩

/-! ## C3 — boundary stitching of newly built segments (corrected) -/

/-- C3 counterexample: building a segment at `startX = 40` with an adjacent
previous segment on `[0, 40)` does *not* force the very first sample to the
previous segment's last sample height.  Here the previous segment's last
height equals the raw generator output (so the hills rate-limiter does not
fire) and its next-to-last sample differs by 1; the built first sample is
then the boundary blend `y28*(1-c) + y29*c` with `c = cubic(0.9275) ≠ 1`,
strictly different from the last height `y29`. -/
theorem createTerrainSegment_first_sample_not_forced :
    (((createTerrainSegment hostZero c3State 40 6).2.points.getD []).head?.map
      (fun p => p.height)) ≠
      some (previousEndHeightOf c3State.terrainMeshes) := by
  with_unfolding_all decide

/-- C3 amended: in the canonical (part_004) builder the very first sample is
the raw generator output — for every host, state, chunk type and previous
end height, sample 0 carries `segmentPointRaw … 0` with no forcing to the
previous segment's last height; samples `i = 1..4` are blended from the
previous end height toward the generator output with quintic easing,
`pe * (1 - quintic(i/5)) + gen_i * quintic(i/5)` (so the exact join —
and hence exact two-sided boundary agreement — is not guaranteed; the
separate `Terrain.js` variant does force its first point). -/
theorem buildPoints_first_sample_and_blend (jm : JsMath) (st : TState)
    (fuel : ℕ) (chunkType : ChunkType) (startX difficulty : ℚ) (pe : ℚ) :
    (∀ peOpt : Option ℚ,
      ((buildPoints jm st fuel chunkType startX difficulty peOpt)[0]?.map
        (fun p => p.height)) =
        some (segmentPointRaw jm st fuel chunkType startX difficulty 0)) ∧
    (∀ i : ℕ, 1 ≤ i → i ≤ 4 →
      ((buildPoints jm st fuel chunkType startX difficulty (some pe))[i]?.map
        (fun p => p.height)) =
        some (some (pe * (1 - quinticInterpolation ((i : ℚ) / 5)) +
          (segmentPointRaw jm st fuel chunkType startX difficulty i).getD 0 *
            quinticInterpolation ((i : ℚ) / 5)))) := by
  constructor
  · intro peOpt
    rw [buildPoints, List.getElem?_map,
      List.getElem?_range (show 0 < nbPoints by norm_num [nbPoints])]
    rw [Option.map_some']
    have hng : ¬(chunkType = ChunkType.gap ∧
        ((0 : ℕ) : ℚ) / ((nbPoints : ℚ) - 1) > 0.3 ∧
        ((0 : ℕ) : ℚ) / ((nbPoints : ℚ) - 1) < 0.7) := by
      rintro ⟨-, h2, -⟩
      norm_num [nbPoints] at h2
    rw [if_neg hng]
    cases peOpt with
    | none => rfl
    | some pe2 =>
        have : ¬(0 < 0 ∧ 0 < 5) := by omega
        simp only [this, if_false, Option.map_some']
  · intro i h1 h4
    rw [buildPoints, List.getElem?_map,
      List.getElem?_range (show i < nbPoints by norm_num [nbPoints]; omega)]
    rw [Option.map_some']
    have hle : (i : ℚ) ≤ 4 := by exact_mod_cast h4
    have hng : ¬(chunkType = ChunkType.gap ∧
        ((i : ℕ) : ℚ) / ((nbPoints : ℚ) - 1) > 0.3 ∧
        ((i : ℕ) : ℚ) / ((nbPoints : ℚ) - 1) < 0.7) := by
      rintro ⟨-, h2, -⟩
      rw [gt_iff_lt, lt_div_iff₀ (by norm_num [nbPoints])] at h2
      norm_num [nbPoints] at h2
      linarith
    rw [if_neg hng]
    have hblend : 0 < i ∧ i < 5 := by omega
    dsimp only
    rw [if_pos hblend]
    simp only [Option.map_some', Option.some.injEq]
    congr 1
    ring

/-- Witness for C3 (amended) at the `c3State` build: first sample raw at
index 0, quintic blend at index 1. -/
theorem buildPoints_first_sample_and_blend_witness :
    (((buildPoints hostZero c3State 5 ChunkType.hills 40 0.008
        (some c3RawHeight))[0]?.map (fun p => p.height)) =
      some (segmentPointRaw hostZero c3State 5 ChunkType.hills 40 0.008 0)) ∧
    (((buildPoints hostZero c3State 5 ChunkType.hills 40 0.008
        (some c3RawHeight))[1]?.map (fun p => p.height)) =
      some (some (c3RawHeight * (1 - quinticInterpolation ((1 : ℚ) / 5)) +
        (segmentPointRaw hostZero c3State 5 ChunkType.hills 40 0.008 1).getD 0 *
          quinticInterpolation ((1 : ℚ) / 5)))) :=
  ⟨(buildPoints_first_sample_and_blend hostZero c3State 5 ChunkType.hills 40
      0.008 c3RawHeight).1 (some c3RawHeight),
    (buildPoints_first_sample_and_blend hostZero c3State 5 ChunkType.hills 40
      0.008 c3RawHeight).2 1 (by norm_num) (by norm_num)⟩

/-! ## C4 — the void window of a built gap segment -/

theorem buildPoints_length (jm : JsMath) (st : TState) (fuel : ℕ)
    (ct : ChunkType) (sX d : ℚ) (pe : Option ℚ) :
    (buildPoints jm st fuel ct sX d pe).length = nbPoints := by
  simp [buildPoints]

theorem generateGap_ne_none_low (jm : JsMath) (st : TState) (fuel : ℕ)
    (x sX d : ℚ) (hx : x < sX + 35 / 2) :
    generateGap jm st fuel x sX (sX + segmentWidth) d ≠ none := by
  cases fuel with
  | zero => simp [generateGap]
  | succ fuel =>
      rw [generateGap]
      dsimp only
      split_ifs with h1 h2 h3 h4
      · simp
      · simp
      · exfalso
        apply h2
        have hgw : min (3 + min (d * 0.7) 0.6 * 2) 5.0 ≤ 5.0 :=
          min_le_right _ _
        simp only [segmentWidth] at *
        linarith
      · simp
      · simp

theorem generateGap_ne_none_high (jm : JsMath) (st : TState) (fuel : ℕ)
    (x sX d : ℚ) (hx : sX + 45 / 2 ≤ x) :
    generateGap jm st fuel x sX (sX + segmentWidth) d ≠ none := by
  cases fuel with
  | zero => simp [generateGap]
  | succ fuel =>
      rw [generateGap]
      dsimp only
      split_ifs with h1 h2 h3 h4
      · simp
      · simp
      · exfalso
        have hgw : min (3 + min (d * 0.7) 0.6 * 2) 5.0 ≤ 5.0 :=
          min_le_right _ _
        simp only [segmentWidth] at *
        linarith
      · simp
      · simp

theorem buildPoints_gap_height_none_iff (jm : JsMath) (st : TState)
    (fuel : ℕ) (sX d : ℚ) (pe : Option ℚ) (i : ℕ) (hi : i < nbPoints) :
    ((buildPoints jm st fuel ChunkType.gap sX d pe)[i]?.map
        SamplePoint.height = some none) ↔ (9 ≤ i ∧ i ≤ 20) := by
  rw [buildPoints, List.getElem?_map, List.getElem?_range (by simpa using hi),
    Option.map_some']
  by_cases hg : 9 ≤ i ∧ i ≤ 20
  · have h9 : (9 : ℚ) ≤ (i : ℚ) := by exact_mod_cast hg.1
    have h20 : (i : ℚ) ≤ 20 := by exact_mod_cast hg.2
    have hgap : ChunkType.gap = ChunkType.gap ∧
        ((i : ℕ) : ℚ) / ((nbPoints : ℚ) - 1) > 0.3 ∧
        ((i : ℕ) : ℚ) / ((nbPoints : ℚ) - 1) < 0.7 := by
      refine ⟨rfl, ?_, ?_⟩
      · rw [gt_iff_lt, lt_div_iff₀ (by norm_num [nbPoints])]
        norm_num [nbPoints]
        linarith
      · rw [div_lt_iff₀ (by norm_num [nbPoints])]
        norm_num [nbPoints]
        linarith
    rw [if_pos hgap]
    simp [hg]
  · have hngap : ¬(ChunkType.gap = ChunkType.gap ∧
        ((i : ℕ) : ℚ) / ((nbPoints : ℚ) - 1) > 0.3 ∧
        ((i : ℕ) : ℚ) / ((nbPoints : ℚ) - 1) < 0.7) := by
      rintro ⟨-, hgt, hlt⟩
      rw [gt_iff_lt, lt_div_iff₀ (by norm_num [nbPoints])] at hgt
      rw [div_lt_iff₀ (by norm_num [nbPoints])] at hlt
      norm_num [nbPoints] at hgt hlt
      have h9 : 9 ≤ i := by
        by_contra hcon
        push_neg at hcon
        have h8 : (i : ℚ) ≤ 8 := by exact_mod_cast Nat.lt_succ_iff.mp hcon
        linarith
      have h20 : i ≤ 20 := by
        by_contra hcon
        push_neg at hcon
        have h21 : (21 : ℚ) ≤ (i : ℚ) := by exact_mod_cast hcon
        linarith
      exact hg ⟨h9, h20⟩
    rw [if_neg hngap]
    apply iff_of_false _ hg
    simp only [Option.map_some', Option.some.injEq]
    have h29 : ((nbPoints : ℚ) - 1) = 29 := by norm_num [nbPoints]
    have hy0 : segmentPointRaw jm st fuel ChunkType.gap sX d i ≠ none := by
      show generateGap jm st fuel
        (sX + (i : ℚ) / ((nbPoints : ℚ) - 1) * segmentWidth) sX
        (sX + segmentWidth) d ≠ none
      rcases (show i ≤ 8 ∨ 21 ≤ i from by omega) with hc | hc
      · apply generateGap_ne_none_low
        have hc8 : (i : ℚ) ≤ 8 := by exact_mod_cast hc
        rw [h29]
        simp only [segmentWidth]
        linarith
      · apply generateGap_ne_none_high
        have hc21 : (21 : ℚ) ≤ (i : ℚ) := by exact_mod_cast hc
        rw [h29]
        simp only [segmentWidth]
        linarith
    cases pe with
    | none => exact hy0
    | some pev =>
        dsimp only
        by_cases hbl : 0 < i ∧ i < 5
        · rw [if_pos hbl]
          simp
        · rw [if_neg hbl]
          exact hy0

theorem smoothSegmentPoints_height_none_iff (points : List SamplePoint)
    (i : ℕ) :
    ((smoothSegmentPoints points)[i]?.map SamplePoint.height = some none) ↔
      (points[i]?.map SamplePoint.height = some none) := by
  have h := smoothSegmentPoints_height_isSome points i
  cases hs : (smoothSegmentPoints points)[i]? with
  | none =>
      cases hp : points[i]? with
      | none => simp
      | some p => rw [hs, hp] at h; simp at h
  | some q =>
      cases hp : points[i]? with
      | none => rw [hs, hp] at h; simp at h
      | some p =>
          rw [hs, hp] at h
          simp only [Option.map_some', Option.some.injEq] at h ⊢
          cases hq : q.height <;> cases hpp : p.height <;>
            rw [hq, hpp] at h <;> simp_all

theorem createTerrainSegment_chunkType (jm : JsMath) (st : TState) (sX : ℚ)
    (f : ℕ) :
    (createTerrainSegment jm st sX f).2.chunkType =
      (selectChunkType st.seed (min 0.99 (max 0 (|sX| / 5000)))).2 := rfl

theorem createTerrainSegment_built_points (jm : JsMath) (st : TState)
    (sX : ℚ) (f : ℕ) :
    (createTerrainSegment jm st sX f).2.points =
      some (smoothSegmentPoints (buildPoints jm
        { st with seed :=
            (selectChunkType st.seed (min 0.99 (max 0 (|sX| / 5000)))).1 } f
        ((selectChunkType st.seed (min 0.99 (max 0 (|sX| / 5000)))).2) sX
        (min 0.99 (max 0 (|sX| / 5000)))
        (previousEndHeightOf st.terrainMeshes))) := rfl

/-- C4: for a built segment whose chunk type is `gap`, installed as the only
stored segment, the height query returns `null` exactly on the materialised
void window `[startX + 360/29, startX + 840/29)` (the samples with
`0.3 < i/29 < 0.7`), and a non-null height everywhere else in the segment's
range — in particular immediately outside the window. -/
theorem gap_segment_void_window (jm : JsMath) (st : TState) (startX : ℚ)
    (bf qf : ℕ) (x : ℚ)
    (hE : st.terrainMeshes = [])
    (hC : (createTerrainSegment jm st startX bf).2.chunkType = ChunkType.gap)
    (hx1 : startX ≤ x) (hx2 : x < startX + segmentWidth) :
    (getTerrainHeightAt jm (createTerrainSegment jm st startX bf).1 (qf + 1) x
        = none ↔
      (startX + 360 / 29 ≤ x ∧ x < startX + 840 / 29)) := by
  have hmesh : (createTerrainSegment jm st startX bf).1.terrainMeshes =
      [(createTerrainSegment jm st startX bf).2] := by
    rw [createTerrainSegment_meshes, hE]
    rfl
  have hCpick : (selectChunkType st.seed
      (min 0.99 (max 0 (|startX| / 5000)))).2 = ChunkType.gap :=
    (createTerrainSegment_chunkType jm st startX bf).symm.trans hC
  rw [getTerrainHeightAt, hmesh]
  have hpred : (fun seg => decide (x ≥ seg.startX) &&
      decide (x < seg.startX + segmentWidth))
      ((createTerrainSegment jm st startX bf).2) = true := by
    simp only [createTerrainSegment_startX, Bool.and_eq_true, decide_eq_true_eq]
    exact ⟨hx1, hx2⟩
  rw [@List.find?_cons_of_pos _
    (fun seg => decide (x ≥ seg.startX) && decide (x < seg.startX + segmentWidth))
    ((createTerrainSegment jm st startX bf).2) [] hpred]
  dsimp only
  rw [createTerrainSegment_built_points, hCpick]
  dsimp only
  simp only [createTerrainSegment_startX]
  set bp := buildPoints jm
    { st with seed :=
        (selectChunkType st.seed (min 0.99 (max 0 (|startX| / 5000)))).1 } bf
    ChunkType.gap startX (min 0.99 (max 0 (|startX| / 5000)))
    (previousEndHeightOf st.terrainMeshes) with hbp
  have hbplen : bp.length = nbPoints := buildPoints_length ..
  have hplen : (smoothSegmentPoints bp).length = 30 := by
    rw [smoothSegmentPoints_length, hbplen]
    norm_num [nbPoints]
  rw [if_neg (by omega)]
  rw [hplen]
  set v : ℚ := (x - startX) / segmentWidth * ((30 : ℕ) - 1 : ℚ) with hv
  have hv' : v = (x - startX) / segmentWidth * 29 := by
    rw [hv]; norm_num
  have hsw : (0 : ℚ) < segmentWidth := by norm_num [segmentWidth]
  have hv0 : 0 ≤ v := by
    rw [hv']
    have : 0 ≤ (x - startX) / segmentWidth :=
      div_nonneg (by linarith) hsw.le
    linarith
  have hv29 : v < 29 := by
    rw [hv']
    have h1 : (x - startX) / segmentWidth < 1 := by
      rw [div_lt_one hsw]
      simp only [segmentWidth] at hx2 ⊢
      linarith
    linarith
  have hfl0 : 0 ≤ ⌊v⌋ := Int.floor_nonneg.2 hv0
  have hfl28 : ⌊v⌋ < 29 := by
    have := Int.floor_lt.2 (show v < ((29 : ℤ) : ℚ) by exact_mod_cast hv29)
    exact this
  have hidx : (⌊v⌋).toNat < 30 := by omega
  have hidxiff : (9 ≤ (⌊v⌋).toNat ∧ (⌊v⌋).toNat ≤ 20) ↔
      (startX + 360 / 29 ≤ x ∧ x < startX + 840 / 29) := by
    have h9 : (9 ≤ (⌊v⌋).toNat) ↔ ((9 : ℤ) ≤ ⌊v⌋) := by omega
    have h20 : ((⌊v⌋).toNat ≤ 20) ↔ (⌊v⌋ < 21) := by omega
    rw [h9, h20, Int.le_floor, Int.floor_lt]
    constructor
    · rintro ⟨ha, hb⟩
      rw [hv'] at ha hb
      push_cast at ha hb
      simp only [segmentWidth] at ha hb
      constructor <;> nlinarith
    · rintro ⟨ha, hb⟩
      rw [hv']
      push_cast
      simp only [segmentWidth]
      constructor <;> nlinarith
  have hnulliff : ((smoothSegmentPoints bp).get? (⌊v⌋).toNat).map
      SamplePoint.height = some none ↔
      (9 ≤ (⌊v⌋).toNat ∧ (⌊v⌋).toNat ≤ 20) := by
    rw [List.get?_eq_getElem?]
    rw [smoothSegmentPoints_height_none_iff]
    rw [hbp]
    exact buildPoints_gap_height_none_iff jm _ bf startX _ _ (⌊v⌋).toNat
      (by norm_num [nbPoints]; omega)
  by_cases hnull : ((smoothSegmentPoints bp).get? (⌊v⌋).toNat).map
      SamplePoint.height = some none
  · rw [if_pos hnull]
    simp only [true_iff]
    exact hidxiff.1 (hnulliff.1 hnull)
  · rw [if_neg hnull]
    have hrhs : ¬(startX + 360 / 29 ≤ x ∧ x < startX + 840 / 29) :=
      fun hr => hnull (hnulliff.2 (hidxiff.2 hr))
    apply iff_of_false _ hrhs
    split <;> simp

/-- Witness for C4: seed 41 draws a gap chunk at `startX = 3000`
(difficulty 0.6), and the query point 3015 lies strictly inside the void
window `[3012.41…, 3028.96…)`. -/
theorem gap_segment_void_window_witness :
    (getTerrainHeightAt hostZero
        (createTerrainSegment hostZero (initState 41) 3000 1).1 5 3015 =
        none ↔
      ((3000 : ℚ) + 360 / 29 ≤ 3015 ∧ (3015 : ℚ) < 3000 + 840 / 29)) :=
  gap_segment_void_window hostZero (initState 41) 3000 1 4 3015 rfl
    (by with_unfolding_all decide) (by norm_num) (by norm_num [segmentWidth])

end Racing
